import Mathlib

/-!
Verification development for the folder-monitor service (`src/monitor.go`).

The program watches a source directory for filesystem change notifications,
and for every create notification naming a regular file it copies that file
into a destination directory under the same base name.  The development below
is a shallow embedding of the program:

* the filesystem is a finite association list from path strings to nodes
  (regular file with byte content, directory, device, symlink), together with
  lists of paths on which `stat` and `create` fail with a permission error;
* `statNode` models `os.Stat` (it follows symlinks, with fuel standing in for
  the kernel's symlink-loop limit);
* `copyFile` models `copyFile` (monitor.go:169-191);
* `handleEvent` and `runLoop` model the body of the dispatch loop in `run`
  (monitor.go:106-156); `run` adds the entry phase (monitor.go:69-103);
* `Start` / `Stop` model the lifecycle methods (monitor.go:59-66, 160-166),
  with a Go channel modelled by its closed flag and `close` on a closed
  channel producing a runtime panic, as in Go;
* `MState` / `mstep` / `execSched` are a small-step machine for the
  `select`-based dispatch loop in which the scheduler (delivery of events,
  the host calling `Stop`, and which ready `select` branch fires) is an
  explicit list of steps, so that Go's nondeterministic choice among ready
  `select` branches is every `validSched` list of steps.
-/

deriving instance DecidableEq for Except

namespace Monitor

/-- A filesystem node: a regular file with its byte content, a directory,
a device (or other non-regular) node, or a symbolic link to another path. -/
inductive FNode where
  | regular (content : List Nat)
  | directory
  | device
  | symlink (target : String)
deriving DecidableEq, Repr

/-- Lookup in an association list of directory entries. -/
def lookupEntry : List (String × FNode) → String → Option FNode
  | [], _ => none
  | (q, n) :: rest, p => if q = p then some n else lookupEntry rest p

/-- Insert or overwrite an entry (models create/truncate of a path). -/
def setEntry : List (String × FNode) → String → FNode → List (String × FNode)
  | [], p, n => [(p, n)]
  | (q, m) :: rest, p, n => if q = p then (p, n) :: rest else (q, m) :: setEntry rest p n

/-- Insert an entry only when the path is absent (models `os.MkdirAll`
leaving already-existing directories alone). -/
def setEntryIfAbsent (es : List (String × FNode)) (p : String) (n : FNode) :
    List (String × FNode) :=
  match lookupEntry es p with
  | some _ => es
  | none => es ++ [(p, n)]

/-- The filesystem: entries plus the paths on which `stat` fails with a
permission error and the paths on which `os.Create` / `os.MkdirAll` fail. -/
structure FS where
  entries : List (String × FNode)
  statDenied : List String
  createDenied : List String
deriving DecidableEq, Repr

/-- Errors `os.Stat` can report in the model: the path does not exist,
permission is denied, or symlink resolution ran out (ELOOP). -/
inductive StatErr where
  | notExist
  | permission
  | loop
deriving DecidableEq, Repr

/-- Symlink-resolution fuel, standing in for the kernel's loop limit. -/
def statFuel : Nat := 40

/-- Resolve a path to its node, following symlinks, as `os.Stat` does. -/
def statNode : Nat → FS → String → Except StatErr FNode
  | 0, _, _ => .error .loop
  | fuel + 1, fs, p =>
    if fs.statDenied.contains p then .error .permission
    else
      match lookupEntry fs.entries p with
      | none => .error .notExist
      | some (.symlink t) => statNode fuel fs t
      | some n => .ok n

/-- `os.Stat`: resolve with the standard fuel. -/
def osStat (fs : FS) (p : String) : Except StatErr FNode :=
  statNode statFuel fs p

/-- `FileInfo.IsDir()` on a resolved node. -/
def isDirNode : FNode → Bool
  | .directory => true
  | _ => false

/-- `FileMode.IsRegular()` on a resolved node. -/
def isRegularNode : FNode → Bool
  | .regular _ => true
  | _ => false

/-- `os.Open` followed by reading all bytes: like `os.Stat`, opening follows
symlinks, and it yields the resolved regular file's content. -/
def readContent (fs : FS) (p : String) : Option (List Nat) :=
  match osStat fs p with
  | .ok (.regular c) => some c
  | _ => none

/-- Split a character list on a separator character. -/
def splitOnChar (sep : Char) : List Char → List (List Char)
  | [] => [[]]
  | c :: rest =>
    match splitOnChar sep rest with
    | [] => if c = sep then [[], []] else [[c]]
    | g :: gs => if c = sep then [] :: g :: gs else (c :: g) :: gs

/-- The non-empty slash-separated components of a path. -/
def pathComps (p : String) : List String :=
  ((splitOnChar '/' p.data).filter (fun g => g ≠ [])).map (fun g => String.mk g)

/-- `filepath.Base`: the last path component; "." for the empty path and
"/" for a path made of separators only. -/
def basename (p : String) : String :=
  if p = "" then "."
  else
    match (pathComps p).getLast? with
    | some c => c
    | none => "/"

/-- `filepath.Join` for two elements (paths in this development are taken
already clean, so the `Clean` pass of the Go function is the identity). -/
def joinPath (a b : String) : String :=
  if a = "" then b
  else if b = "" then a
  else a ++ "/" ++ b

/-- Rebuild a path from components. -/
def joinComps : List String → String
  | [] => ""
  | [c] => c
  | c :: rest => c ++ "/" ++ joinComps rest

/-- Every ancestor of a path, shortest first, the path itself last. -/
def ancestorPaths (p : String) : List String :=
  (List.range (pathComps p).length).map (fun i => joinComps ((pathComps p).take (i + 1)))

/-- `os.MkdirAll`: create the path and every missing ancestor as a
directory, leaving existing entries untouched. -/
def mkdirAll (fs : FS) (p : String) : FS :=
  { fs with entries :=
      (ancestorPaths p).foldl (fun es q => setEntryIfAbsent es q .directory) fs.entries }

/-- Whether `os.MkdirAll` succeeds: every ancestor is either an existing
directory or absent and creatable. -/
def mkdirAllOk (fs : FS) (p : String) : Bool :=
  (ancestorPaths p).all (fun q =>
    match lookupEntry fs.entries q with
    | none => !(fs.createDenied.contains q)
    | some .directory => true
    | some _ => false)

/-- The errors `copyFile` can return. -/
inductive CopyErr where
  | statFailed (e : StatErr)
  | notRegularFile (src : String)
  | openFailed (src : String)
  | createFailed (dst : String)
deriving DecidableEq, Repr

/-- Model of `copyFile` (monitor.go:169-191): stat the source; reject a
non-regular source before touching the destination; open and read the
source; create/truncate the destination and write the bytes.  A returned
error carries no filesystem, so an error leaves every file unchanged. -/
def copyFile (fs : FS) (src dst : String) : Except CopyErr FS :=
  match osStat fs src with
  | .error e => .error (.statFailed e)
  | .ok n =>
    if !(isRegularNode n) then .error (.notRegularFile src)
    else
      match readContent fs src with
      | none => .error (.openFailed src)
      | some content =>
        if fs.createDenied.contains dst then .error (.createFailed dst)
        else .ok { fs with entries := setEntry fs.entries dst (.regular content) }

/-- The `fsnotify.Create` operation bit. -/
def fsnotifyCreate : Nat := 1

/-- An fsnotify event: the affected path and the operation bitmask. -/
structure Event where
  name : String
  op : Nat
deriving DecidableEq, Repr

/-- The test `event.Op&fsnotify.Create == fsnotify.Create` (monitor.go:113). -/
def isCreate (e : Event) : Bool :=
  e.op &&& fsnotifyCreate == fsnotifyCreate

/-- The observable outcomes of one dispatch-loop iteration (each corresponds
to one of the logging calls or exits in monitor.go:106-156). -/
inductive Action where
  | statFailed (p : String)
  | skippedDir (p : String)
  | copied (src dst : String)
  | copyFailed (src dst : String)
  | loggedWatchErr
  | stopped
  | exitedStreamClosed
deriving DecidableEq, Repr

/-- Handling of one event from `watcher.Events` (monitor.go:112-142):
non-create events are ignored; a create is re-stat'ed (skip on stat failure,
skip directories) and otherwise copied to
`filepath.Join(destDir, filepath.Base(event.Name))`. -/
def handleEvent (destDir : String) (fs : FS) (ev : Event) : FS × List Action :=
  if isCreate ev then
    match osStat fs ev.name with
    | .error _ => (fs, [.statFailed ev.name])
    | .ok info =>
      if isDirNode info then (fs, [.skippedDir ev.name])
      else
        let destPath := joinPath destDir (basename ev.name)
        match copyFile fs ev.name destPath with
        | .error _ => (fs, [.copyFailed ev.name destPath])
        | .ok fs2 => (fs2, [.copied ev.name destPath])
  else (fs, [])

/-- One delivery to the three-way `select` (monitor.go:107-155): an event
from `watcher.Events` (or that channel closing), an error from
`watcher.Errors` (or that channel closing), or the `p.exit` channel firing. -/
inductive LoopInput where
  | event (ev : Event)
  | eventsClosed
  | watchErr
  | errorsClosed
  | exitFired
deriving DecidableEq, Repr

/-- The inputs on which the dispatch loop returns. -/
def isTerminal : LoopInput → Bool
  | .eventsClosed => true
  | .errorsClosed => true
  | .exitFired => true
  | _ => false

/-- The dispatch loop (monitor.go:106-156) run over a finite list of
deliveries; an exhausted list means the loop is still blocked in `select`. -/
def runLoop (destDir : String) : FS → List LoopInput → FS × List Action
  | fs, [] => (fs, [])
  | fs, .event ev :: rest =>
    let r := handleEvent destDir fs ev
    let r2 := runLoop destDir r.1 rest
    (r2.1, r.2 ++ r2.2)
  | fs, .eventsClosed :: _ => (fs, [.exitedStreamClosed])
  | fs, .watchErr :: rest =>
    let r := runLoop destDir fs rest
    (r.1, .loggedWatchErr :: r.2)
  | fs, .errorsClosed :: _ => (fs, [.exitedStreamClosed])
  | fs, .exitFired :: _ => (fs, [.stopped])

/-- Failure modes of the external collaborators used during setup:
`fsnotify.NewWatcher()` and `watcher.Add(sourceDir)`. -/
structure ExtEnv where
  newWatcherFails : Bool
  addWatchFails : Bool
deriving DecidableEq, Repr

/-- The outcome of one invocation of `run`: the final filesystem, the
actions performed, whether a watcher was created, and whether the loop was
entered (the `Watching` state was reached). -/
structure RunOutcome where
  finalFS : FS
  actions : List Action
  watcherCreated : Bool
  reachedWatching : Bool
deriving DecidableEq, Repr

/-- The destination-directory check at the top of `run` (monitor.go:74-81):
`os.MkdirAll` runs only when `os.Stat(destDir)` failed with a not-exist
error; `none` is the early `return` after a failed `MkdirAll`. -/
def ensureDestDir (fs : FS) (destDir : String) : Option FS :=
  match osStat fs destDir with
  | .error .notExist =>
    if mkdirAllOk fs destDir then some (mkdirAll fs destDir) else none
  | _ => some fs

/-- Model of `run` (monitor.go:69-157): ensure the destination directory,
create the watcher, add the source directory to it, then run the loop. -/
def run (env : ExtEnv) (fs : FS) (sourceDir destDir : String)
    (inputs : List LoopInput) : RunOutcome :=
  match ensureDestDir fs destDir with
  | none => ⟨fs, [], false, false⟩
  | some fs1 =>
    if env.newWatcherFails then ⟨fs1, [], false, false⟩
    else if env.addWatchFails then ⟨fs1, [], true, false⟩
    else
      let r := runLoop destDir fs1 inputs
      ⟨r.1, r.2, true, true⟩

/-- A Go channel of `struct{}` used only for closing: all that matters is
whether it has been closed. -/
structure GoChan where
  closed : Bool
deriving DecidableEq, Repr

/-- A Go computation that either panics at runtime or returns a value. -/
inductive GoResult (α : Type) where
  | panicked (msg : String)
  | ok (a : α)
deriving DecidableEq, Repr

/-- Go's `close`: closing an already-closed channel panics. -/
def closeChan (c : GoChan) : GoResult GoChan :=
  if c.closed then .panicked "close of closed channel" else .ok ⟨true⟩

/-- The `program` struct, reduced to the state the lifecycle methods touch. -/
structure Program where
  exit : GoChan
deriving DecidableEq, Repr

/-- Model of `Stop` (monitor.go:160-166): `close(p.exit)`, log, return nil.
The returned `Option String` is the Go `error` (`none` is nil). -/
def Stop (p : Program) : GoResult (Program × Option String) :=
  match closeChan p.exit with
  | .panicked m => .panicked m
  | .ok c => .ok (⟨c⟩, none)

/-- What `Start` produces: the program with its fresh exit channel, the
returned error, and the loop run it spawned (which executes concurrently;
`Start` does not wait for it). -/
structure StartOutcome where
  prog : Program
  ret : Option String
  spawned : RunOutcome
deriving DecidableEq, Repr

/-- Model of `Start` (monitor.go:59-66): make a fresh exit channel, spawn
`run` in a goroutine, and return nil immediately, whatever the prior state
`p` and whatever the spawned run will do. -/
def Start (p : Program) (env : ExtEnv) (fs : FS) (sourceDir destDir : String)
    (inputs : List LoopInput) : StartOutcome :=
  { prog := ⟨⟨false⟩⟩, ret := none, spawned := run env fs sourceDir destDir inputs }

/-- State of the watching loop together with its environment: the exit
channel, the filesystem, the buffered `watcher.Events` queue, the number of
buffered `watcher.Errors`, whether the loop is still running, and the
actions performed so far. -/
structure MState where
  prog : Program
  fs : FS
  evQueue : List Event
  errQueue : Nat
  running : Bool
  acts : List Action
deriving DecidableEq, Repr

/-- One scheduler step: the watcher delivering an event or an error, the
host calling `Stop` (firing the shutdown signal), or the loop's `select`
resolving to one of its three branches. -/
inductive SchedStep where
  | deliverEvent (e : Event)
  | deliverError
  | callStop
  | selectEvent
  | selectError
  | selectExit
deriving DecidableEq, Repr

/-- Which steps Go allows in a state.  A `select` branch is enabled exactly
when its channel is ready; Go chooses among ready branches at random, so in
particular `selectEvent` stays enabled after the exit channel is closed. -/
def enabled (s : MState) : SchedStep → Bool
  | .deliverEvent _ => true
  | .deliverError => true
  | .callStop => !s.prog.exit.closed
  | .selectEvent => s.running && !s.evQueue.isEmpty
  | .selectError => s.running && (s.errQueue != 0)
  | .selectExit => s.running && s.prog.exit.closed

/-- Effect of one scheduler step on the state. -/
def mstep (destDir : String) (s : MState) : SchedStep → MState
  | .deliverEvent e => { s with evQueue := s.evQueue ++ [e] }
  | .deliverError => { s with errQueue := s.errQueue + 1 }
  | .callStop => { s with prog := ⟨⟨true⟩⟩ }
  | .selectEvent =>
    match s.evQueue with
    | [] => s
    | e :: rest =>
      let r := handleEvent destDir s.fs e
      { s with fs := r.1, evQueue := rest, acts := s.acts ++ r.2 }
  | .selectError => { s with errQueue := s.errQueue - 1, acts := s.acts ++ [.loggedWatchErr] }
  | .selectExit => { s with running := false, acts := s.acts ++ [.stopped] }

/-- Run a schedule to its final state. -/
def execSched (destDir : String) : MState → List SchedStep → MState
  | s, [] => s
  | s, st :: rest => execSched destDir (mstep destDir s st) rest

/-- A schedule is valid when every step is enabled when it is taken. -/
def validSched (destDir : String) : MState → List SchedStep → Bool
  | _, [] => true
  | s, st :: rest => enabled s st && validSched destDir (mstep destDir s st) rest

/-! Helper lemmas about the association-list filesystem. -/

theorem lookupEntry_setEntry_self (es : List (String × FNode)) (p : String) (n : FNode) :
    lookupEntry (setEntry es p n) p = some n := by
  induction es with
  | nil => simp [setEntry, lookupEntry]
  | cons a rest ih =>
    obtain ⟨q, m⟩ := a
    by_cases h : q = p
    · simp [setEntry, lookupEntry, h]
    · simp [setEntry, lookupEntry, h, ih]

/-! Witness fixtures: small concrete filesystems and machine states. -/

/-- A source tree holding one regular file `src/a.txt` with bytes "hi". -/
def fsReg : FS := ⟨[("src/a.txt", .regular [104, 105])], [], []⟩

/-- A source tree holding one directory `sub`. -/
def fsDir : FS := ⟨[("sub", .directory)], [], []⟩

/-- A regular file `t` and a symlink `s` pointing at it. -/
def fsLink : FS := ⟨[("t", .regular [7]), ("s", .symlink "t")], [], []⟩

/-- A regular file and a device node side by side. -/
def fsBoth : FS := ⟨[("src/a.txt", .regular [104, 105]), ("src/bad", .device)], [], []⟩

/-- Claim C1: on a create notification handled while watching whose path
stats as a regular file, the loop invokes the Copy Operation with
destination `join(destDir, basename(source))`; when the copy succeeds the
destination entry holds exactly the source's bytes (same base name, equal
content), and when the destination cannot be created the loop records the
failed copy and leaves the filesystem unchanged. -/
theorem C1_create_copies_equal_content (destDir : String) (fs : FS) (ev : Event)
    (c : List Nat) (hc : isCreate ev = true)
    (hs : osStat fs ev.name = .ok (.regular c)) :
    (fs.createDenied.contains (joinPath destDir (basename ev.name)) = true →
      handleEvent destDir fs ev =
        (fs, [.copyFailed ev.name (joinPath destDir (basename ev.name))])) ∧
    (fs.createDenied.contains (joinPath destDir (basename ev.name)) = false →
      handleEvent destDir fs ev =
        ({ fs with entries :=
            setEntry fs.entries (joinPath destDir (basename ev.name)) (.regular c) },
         [.copied ev.name (joinPath destDir (basename ev.name))]) ∧
      lookupEntry
          (setEntry fs.entries (joinPath destDir (basename ev.name)) (.regular c))
          (joinPath destDir (basename ev.name)) = some (.regular c)) := by
  constructor
  · intro hd
    have hd' : joinPath destDir (basename ev.name) ∈ fs.createDenied := by simpa using hd
    simp [handleEvent, copyFile, readContent, hc, hs, isDirNode, isRegularNode, hd']
  · intro hd
    have hd' : joinPath destDir (basename ev.name) ∉ fs.createDenied := by simpa using hd
    refine ⟨?_, lookupEntry_setEntry_self _ _ _⟩
    simp [handleEvent, copyFile, readContent, hc, hs, isDirNode, isRegularNode, hd']

/-- Witness for C1: creating `src/a.txt` with bytes "hi" while watching into
`dest` yields `dest/a.txt` with bytes "hi". -/
theorem C1_witness :
    handleEvent "dest" fsReg ⟨"src/a.txt", 1⟩ =
      (⟨[("src/a.txt", .regular [104, 105]), ("dest/a.txt", .regular [104, 105])],
        [], []⟩,
       [.copied "src/a.txt" "dest/a.txt"]) :=
  ((C1_create_copies_equal_content "dest" fsReg ⟨"src/a.txt", 1⟩ [104, 105]
      (by decide) (by decide)).2 (by decide)).1

/-- Claim C3: `copyFile` on a source that does not exist or is not a regular
file returns an error — and specifically the not-regular-file error whenever
the source stats successfully — before ever touching the destination: the
error branches of `copyFile` return no filesystem, so every pre-existing
destination file is left byte-for-byte unchanged. -/
theorem C3_copy_non_regular_errors (fs : FS) (src dst : String)
    (h : osStat fs src = .error .notExist ∨
      ∃ n, osStat fs src = .ok n ∧ isRegularNode n = false) :
    (∃ e, copyFile fs src dst = .error e) ∧
    (∀ n, osStat fs src = .ok n →
      copyFile fs src dst = .error (.notRegularFile src)) := by
  rcases h with h | ⟨n, hn, hr⟩
  · refine ⟨⟨.statFailed .notExist, ?_⟩, fun n hn => ?_⟩
    · simp [copyFile, h]
    · rw [h] at hn
      exact absurd hn (by simp)
  · refine ⟨⟨.notRegularFile src, ?_⟩, fun m hm => ?_⟩
    · simp [copyFile, hn, hr]
    · rw [hn] at hm
      obtain rfl : n = m := by injection hm
      simp [copyFile, hn, hr]

/-- Witness for C3: copying the directory `sub` fails with the
not-regular-file error. -/
theorem C3_witness :
    copyFile fsDir "sub" "x" = .error (.notRegularFile "sub") :=
  (C3_copy_non_regular_errors fsDir "sub" "x"
      (Or.inr ⟨.directory, by decide, by decide⟩)).2 .directory (by decide)

/-- Claim C10: `copyFile` follows symlinks, because `os.Stat` and `os.Open`
both resolve them: a source that is a symlink to a regular file is never
rejected with the not-regular-file error, and (when the destination can be
created) the copy succeeds and writes the resolved target's bytes. -/
theorem C10_copy_follows_symlinks (fs : FS) (src dst target : String) (c : List Nat)
    (h1 : lookupEntry fs.entries src = some (.symlink target))
    (h2 : osStat fs src = .ok (.regular c)) :
    copyFile fs src dst ≠ .error (.notRegularFile src) ∧
    (fs.createDenied.contains dst = false →
      copyFile fs src dst =
        .ok { fs with entries := setEntry fs.entries dst (.regular c) }) := by
  constructor
  · by_cases hd : dst ∈ fs.createDenied <;>
      simp [copyFile, readContent, h2, isRegularNode, hd]
  · intro hd
    have hd' : dst ∉ fs.createDenied := by simpa using hd
    simp [copyFile, readContent, h2, isRegularNode, hd']

/-- Witness for C10: copying through the symlink `s` to the regular file `t`
succeeds and writes `t`'s bytes to the destination. -/
theorem C10_witness :
    copyFile fsLink "s" "d" =
      .ok ⟨[("t", .regular [7]), ("s", .symlink "t"), ("d", .regular [7])], [], []⟩ :=
  (C10_copy_follows_symlinks fsLink "s" "d" "t" [7] (by decide) (by decide)).2
    (by decide)

/-- Splitting a dispatch-loop run at a prefix free of terminating inputs:
the loop consumes the whole prefix and then processes the rest from the
filesystem the prefix produced. -/
theorem runLoop_append (destDir : String) (fs : FS) (xs ys : List LoopInput)
    (h : ∀ i ∈ xs, isTerminal i = false) :
    runLoop destDir fs (xs ++ ys) =
      ((runLoop destDir (runLoop destDir fs xs).1 ys).1,
       (runLoop destDir fs xs).2 ++ (runLoop destDir (runLoop destDir fs xs).1 ys).2) := by
  induction xs generalizing fs with
  | nil => simp [runLoop]
  | cons i rest ih =>
    have hi : isTerminal i = false := h i (List.mem_cons_self i rest)
    have hrest : ∀ j ∈ rest, isTerminal j = false :=
      fun j hj => h j (List.mem_cons_of_mem i hj)
    cases i with
    | event ev => simp [runLoop, ih _ hrest, List.append_assoc]
    | watchErr => simp [runLoop, ih _ hrest]
    | eventsClosed => exact absurd hi (by simp [isTerminal])
    | errorsClosed => exact absurd hi (by simp [isTerminal])
    | exitFired => exact absurd hi (by simp [isTerminal])

/-- Claim C5: per-event failures never terminate the dispatch loop.  After
any prefix of non-terminating deliveries — watcher errors and events whose
stat or copy fails included — a subsequent create event is still processed:
the loop handles it exactly as it would from the state the prefix left. -/
theorem C5_failures_never_stop_loop (destDir : String) (fs : FS)
    (xs : List LoopInput) (e : Event)
    (h : ∀ i ∈ xs, isTerminal i = false) :
    runLoop destDir fs (xs ++ [.event e]) =
      ((handleEvent destDir (runLoop destDir fs xs).1 e).1,
       (runLoop destDir fs xs).2 ++
         (handleEvent destDir (runLoop destDir fs xs).1 e).2) := by
  rw [runLoop_append destDir fs xs [.event e] h]
  simp [runLoop]

/-- Witness for C5: after a watcher error and a create event whose copy
fails (a device node), the loop still copies the next created regular file. -/
theorem C5_witness :
    runLoop "dest" fsBoth
        ([.watchErr, .event ⟨"src/bad", 1⟩] ++ [.event ⟨"src/a.txt", 1⟩]) =
      ((handleEvent "dest"
          (runLoop "dest" fsBoth [.watchErr, .event ⟨"src/bad", 1⟩]).1
          ⟨"src/a.txt", 1⟩).1,
       (runLoop "dest" fsBoth [.watchErr, .event ⟨"src/bad", 1⟩]).2 ++
         (handleEvent "dest"
            (runLoop "dest" fsBoth [.watchErr, .event ⟨"src/bad", 1⟩]).1
            ⟨"src/a.txt", 1⟩).2) :=
  C5_failures_never_stop_loop "dest" fsBoth [.watchErr, .event ⟨"src/bad", 1⟩]
    ⟨"src/a.txt", 1⟩ (by decide)

/-- Claim C6: a create notification is stat'ed first; a failed stat skips
the event and the loop continues on the next delivery with the filesystem
unchanged, and a path that stats as a directory is skipped without invoking
the Copy Operation and without producing any destination entry. -/
theorem C6_stat_first_skip_dirs (destDir : String) (fs : FS) (ev : Event)
    (rest : List LoopInput) (hc : isCreate ev = true) :
    (∀ err, osStat fs ev.name = .error err →
      runLoop destDir fs (.event ev :: rest) =
        ((runLoop destDir fs rest).1,
         .statFailed ev.name :: (runLoop destDir fs rest).2)) ∧
    (osStat fs ev.name = .ok .directory →
      runLoop destDir fs (.event ev :: rest) =
        ((runLoop destDir fs rest).1,
         .skippedDir ev.name :: (runLoop destDir fs rest).2)) := by
  constructor
  · intro err h
    simp [runLoop, handleEvent, hc, h]
  · intro h
    simp [runLoop, handleEvent, hc, h, isDirNode]

/-- Witness for C6: a create notification for the directory `sub` is
skipped — no copy, no destination entry, the filesystem is unchanged. -/
theorem C6_witness :
    runLoop "dest" fsDir [.event ⟨"sub", 1⟩] = (fsDir, [.skippedDir "sub"]) :=
  (C6_stat_first_skip_dirs "dest" fsDir ⟨"sub", 1⟩ [] (by decide)).2 (by decide)

/-- Counterexample to claim C2: after a first `Stop()` has completed the
exit channel is closed, and a second `Stop()` executes `close(p.exit)` on a
closed channel, which panics in Go — it is not a no-op. -/
theorem C2_counterexample :
    Stop ⟨⟨false⟩⟩ = .ok (⟨⟨true⟩⟩, none) ∧
    Stop ⟨⟨true⟩⟩ = .panicked "close of closed channel" := by decide

/-- Claim C2 as amended: calling `Stop()` while the exit channel is still
open — in particular after the dispatch loop has already exited on its own
via stream closure, which never closes `p.exit` — succeeds, closes the
channel, and returns a nil error; only a second `Stop()` after a completed
first one panics. -/
theorem C2_amended_stop_open_channel (p : Program) (h : p.exit.closed = false) :
    Stop p = .ok (⟨⟨true⟩⟩, none) := by
  simp [Stop, closeChan, h]

/-- Witness for the amended C2: a first `Stop()` on an open exit channel
returns nil. -/
theorem C2_witness : Stop ⟨⟨false⟩⟩ = .ok (⟨⟨true⟩⟩, none) :=
  C2_amended_stop_open_channel ⟨⟨false⟩⟩ rfl

/-- Claim C8: `Start()` always succeeds.  For every prior program state,
environment, filesystem, configuration, and delivery sequence, it installs a
fresh (open) shutdown channel, spawns exactly the dispatch-loop run, and
returns a nil error — even when the spawned run fails setup and never
reaches the watching state, that failure is not visible in `Start`'s
return value. -/
theorem C8_start_returns_nil (p : Program) (env : ExtEnv) (fs : FS)
    (sourceDir destDir : String) (inputs : List LoopInput) :
    (Start p env fs sourceDir destDir inputs).ret = none ∧
    (Start p env fs sourceDir destDir inputs).prog.exit.closed = false ∧
    (Start p env fs sourceDir destDir inputs).spawned =
      run env fs sourceDir destDir inputs :=
  ⟨rfl, rfl, rfl⟩

/-- Initial watching state for the C4 schedules: loop running, exit channel
open, no buffered deliveries, source tree `fsReg`. -/
def c4Init : MState := ⟨⟨⟨false⟩⟩, fsReg, [], 0, true, []⟩

/-- A schedule in which the host fires the shutdown signal first, the
watcher then delivers a create notification (strictly after the signal), and
the loop's `select` — free to choose among ready branches — picks the event
branch before the exit branch. -/
def c4Sched : List SchedStep :=
  [.callStop, .deliverEvent ⟨"src/a.txt", 1⟩, .selectEvent, .selectExit]

/-- Counterexample to claim C4: `c4Sched` is a valid schedule — every step
is enabled when taken, since Go's `select` chooses arbitrarily among ready
branches and a closed exit channel does not disable the event branch — yet
the notification delivered strictly after the shutdown signal fired is fully
processed (the file is copied) before the loop terminates, and the loop runs
a whole event iteration after the signal instead of exiting within one. -/
theorem C4_counterexample :
    validSched "dest" c4Init c4Sched = true ∧
    (execSched "dest" c4Init c4Sched).running = false ∧
    (execSched "dest" c4Init c4Sched).acts =
      [.copied "src/a.txt" "dest/a.txt", .stopped] := by decide

/-- Claim C4 as amended: once the shutdown signal has fired, the exit branch
of the three-way wait is enabled at every subsequent iteration, and any
iteration whose `select` resolves to the exit branch terminates the loop at
once, processing no notification and leaving the filesystem untouched; but
`select` chooses among ready branches nondeterministically, so a ready
notification — even one that arrived strictly after the signal — may still
be processed before some iteration selects the exit branch. -/
theorem C4_amended_exit_branch_immediate (destDir : String) (s : MState)
    (h1 : s.running = true) (h2 : s.prog.exit.closed = true) :
    enabled s .selectExit = true ∧
    (mstep destDir s .selectExit).running = false ∧
    (mstep destDir s .selectExit).acts = s.acts ++ [.stopped] ∧
    (mstep destDir s .selectExit).fs = s.fs := by
  simp [enabled, mstep, h1, h2]

/-- Witness for the amended C4: from a running state with the signal fired,
selecting the exit branch stops the loop immediately. -/
theorem C4_witness :
    enabled ⟨⟨⟨true⟩⟩, fsReg, [], 0, true, []⟩ .selectExit = true ∧
    (mstep "dest" ⟨⟨⟨true⟩⟩, fsReg, [], 0, true, []⟩ .selectExit).running = false ∧
    (mstep "dest" ⟨⟨⟨true⟩⟩, fsReg, [], 0, true, []⟩ .selectExit).acts =
      [] ++ [.stopped] ∧
    (mstep "dest" ⟨⟨⟨true⟩⟩, fsReg, [], 0, true, []⟩ .selectExit).fs = fsReg :=
  C4_amended_exit_branch_immediate "dest" ⟨⟨⟨true⟩⟩, fsReg, [], 0, true, []⟩ rfl rfl

/-! Lemmas about `os.MkdirAll` on the association-list filesystem. -/

theorem lookupEntry_append_left (es l : List (String × FNode)) (q : String)
    (m : FNode) (h : lookupEntry es q = some m) :
    lookupEntry (es ++ l) q = some m := by
  induction es with
  | nil => simp [lookupEntry] at h
  | cons a rest ih =>
    obtain ⟨r, n⟩ := a
    by_cases hr : r = q
    · simpa [lookupEntry, hr] using by simpa [lookupEntry, hr] using h
    · have h' : lookupEntry rest q = some m := by simpa [lookupEntry, hr] using h
      simpa [lookupEntry, hr] using ih h'

theorem lookupEntry_append_of_none (es l : List (String × FNode)) (q : String)
    (h : lookupEntry es q = none) :
    lookupEntry (es ++ l) q = lookupEntry l q := by
  induction es with
  | nil => simp
  | cons a rest ih =>
    obtain ⟨r, n⟩ := a
    by_cases hr : r = q
    · simp [lookupEntry, hr] at h
    · have h' : lookupEntry rest q = none := by simpa [lookupEntry, hr] using h
      simpa [lookupEntry, hr] using ih h'

theorem lookupEntry_setEntryIfAbsent_preserve (es : List (String × FNode))
    (p q : String) (n m : FNode) (h : lookupEntry es q = some m) :
    lookupEntry (setEntryIfAbsent es p n) q = some m := by
  unfold setEntryIfAbsent
  cases hp : lookupEntry es p with
  | some _ => exact h
  | none => exact lookupEntry_append_left es [(p, n)] q m h

theorem lookupEntry_setEntryIfAbsent_self_of_none (es : List (String × FNode))
    (p : String) (n : FNode) (h : lookupEntry es p = none) :
    lookupEntry (setEntryIfAbsent es p n) p = some n := by
  unfold setEntryIfAbsent
  rw [h, lookupEntry_append_of_none es [(p, n)] p h]
  simp [lookupEntry]

theorem foldl_mkdir_preserve_dir (L : List String) (es : List (String × FNode))
    (q : String) (h : lookupEntry es q = some .directory) :
    lookupEntry (L.foldl (fun a b => setEntryIfAbsent a b .directory) es) q =
      some .directory := by
  induction L generalizing es with
  | nil => exact h
  | cons p rest ih =>
    exact ih _ (lookupEntry_setEntryIfAbsent_preserve es p q .directory .directory h)

theorem lookupEntry_setEntryIfAbsent_none_or_dir (es : List (String × FNode))
    (p q : String)
    (h : lookupEntry es q = none ∨ lookupEntry es q = some .directory) :
    lookupEntry (setEntryIfAbsent es p .directory) q = none ∨
      lookupEntry (setEntryIfAbsent es p .directory) q = some .directory := by
  unfold setEntryIfAbsent
  cases hp : lookupEntry es p with
  | some _ => exact h
  | none =>
    rcases h with h | h
    · rw [lookupEntry_append_of_none es [(p, .directory)] q h]
      by_cases hq : p = q
      · right
        simp [lookupEntry, hq]
      · left
        simp [lookupEntry, hq]
    · right
      exact lookupEntry_append_left es [(p, .directory)] q .directory h

theorem foldl_mkdir_mem_dir (L : List String) (es : List (String × FNode))
    (q : String) (hq : q ∈ L)
    (h : ∀ r ∈ L, lookupEntry es r = none ∨ lookupEntry es r = some .directory) :
    lookupEntry (L.foldl (fun a b => setEntryIfAbsent a b .directory) es) q =
      some .directory := by
  induction L generalizing es with
  | nil => cases hq
  | cons p rest ih =>
    rcases List.mem_cons.mp hq with rfl | hq'
    · have hp := h q (List.mem_cons_self q rest)
      have hself : lookupEntry (setEntryIfAbsent es q .directory) q = some .directory := by
        rcases hp with hp | hp
        · exact lookupEntry_setEntryIfAbsent_self_of_none es q .directory hp
        · exact lookupEntry_setEntryIfAbsent_preserve es q q .directory .directory hp
      exact foldl_mkdir_preserve_dir rest _ q hself
    · refine ih _ hq' (fun r hr => ?_)
      exact lookupEntry_setEntryIfAbsent_none_or_dir es p r
        (h r (List.mem_cons_of_mem p hr))

/-- Claim C7: at dispatch-loop entry, a destination directory whose stat
fails with a not-exist error is created, missing parents included, before
any watcher exists; and when that creation fails the loop returns at once —
no watcher is created, the watching state is never reached, no event is
processed, and the filesystem is left as it was. -/
theorem C7_dest_dir_created_or_abort (env : ExtEnv) (fs : FS)
    (sourceDir destDir : String) (inputs : List LoopInput)
    (h : osStat fs destDir = .error .notExist) :
    (mkdirAllOk fs destDir = false →
      run env fs sourceDir destDir inputs = ⟨fs, [], false, false⟩) ∧
    (mkdirAllOk fs destDir = true →
      ∀ q ∈ ancestorPaths destDir,
        lookupEntry (mkdirAll fs destDir).entries q = some .directory) := by
  constructor
  · intro hbad
    simp [run, ensureDestDir, h, hbad]
  · intro hok q hq
    have hall := (List.all_eq_true).mp hok q hq
    have hcond : lookupEntry fs.entries q = none ∨
        lookupEntry fs.entries q = some .directory := by
      cases hl : lookupEntry fs.entries q with
      | none => exact Or.inl rfl
      | some n =>
        cases n with
        | directory => exact Or.inr rfl
        | regular c => rw [hl] at hall; simp at hall
        | device => rw [hl] at hall; simp at hall
        | symlink t => rw [hl] at hall; simp at hall
    have hmem : ∀ r ∈ ancestorPaths destDir,
        lookupEntry fs.entries r = none ∨ lookupEntry fs.entries r = some .directory := by
      intro r hr
      have hall' := (List.all_eq_true).mp hok r hr
      cases hl : lookupEntry fs.entries r with
      | none => exact Or.inl rfl
      | some n =>
        cases n with
        | directory => exact Or.inr rfl
        | regular c => rw [hl] at hall'; simp at hall'
        | device => rw [hl] at hall'; simp at hall'
        | symlink t => rw [hl] at hall'; simp at hall'
    simpa [mkdirAll] using foldl_mkdir_mem_dir (ancestorPaths destDir) fs.entries q hq hmem

/-- Witness for C7: with an empty filesystem and destination `d/e`, entry
creates both `d` and `d/e` as directories. -/
theorem C7_witness :
    lookupEntry (mkdirAll ⟨[], [], []⟩ "d/e").entries "d" = some .directory :=
  (C7_dest_dir_created_or_abort ⟨false, false⟩ ⟨[], [], []⟩ "s" "d/e" []
      (by decide)).2 (by decide) "d" (by decide)

/-- Claim C9: the destination check creates the directory only when stat
fails with a not-exist error.  Whenever `os.Stat(destDir)` returns anything
else — success (even on a regular file) or a permission or symlink-loop
error — the entry phase leaves the filesystem alone and proceeds: the
watcher is created unless the watcher constructor itself fails, and the
loop reaches the watching state unless watcher creation or the watch
subscription fails. -/
theorem C9_dest_check_only_not_exist (env : ExtEnv) (fs : FS)
    (sourceDir destDir : String) (inputs : List LoopInput)
    (h : osStat fs destDir ≠ .error .notExist) :
    ensureDestDir fs destDir = some fs ∧
    (run env fs sourceDir destDir inputs).watcherCreated = !env.newWatcherFails ∧
    (run env fs sourceDir destDir inputs).reachedWatching =
      (!env.newWatcherFails && !env.addWatchFails) := by
  have he : ensureDestDir fs destDir = some fs := by
    unfold ensureDestDir
    cases hs : osStat fs destDir with
    | error e =>
      cases e with
      | notExist => exact absurd hs h
      | permission => rfl
      | loop => rfl
    | ok n => rfl
  refine ⟨he, ?_, ?_⟩ <;>
    · obtain ⟨nw, aw⟩ := env
      cases nw <;> cases aw <;> simp [run, he]

/-- Witness for C9: the destination path exists as a regular file; the
entry phase does not try to create anything and the loop still reaches the
watching state. -/
theorem C9_witness :
    ensureDestDir ⟨[("d", .regular [])], [], []⟩ "d" =
        some ⟨[("d", .regular [])], [], []⟩ ∧
    (run ⟨false, false⟩ ⟨[("d", .regular [])], [], []⟩ "s" "d" []).watcherCreated =
        !false ∧
    (run ⟨false, false⟩ ⟨[("d", .regular [])], [], []⟩ "s" "d" []).reachedWatching =
        (!false && !false) :=
  C9_dest_check_only_not_exist ⟨false, false⟩ ⟨[("d", .regular [])], [], []⟩
    "s" "d" [] (by decide)

end Monitor
